import Mathlib

set_option maxRecDepth 8192

/-!
Verification of the proof-of-riches backend's proof issuance and
verification subsystem, as a shallow embedding in Lean 4.

The embedding translates the TypeScript sources into Lean definitions:

* `src/services/ethereumProofService.ts` — balance storage-slot
  derivation and the raw-value → token-unit conversion;
* `src/utils/ethereumUtils.ts` — on-chain payment verification;
* `src/services/zkProofService.ts` — SP1 prover orchestration,
  mock-proof synthesis, verification-code generation and off-chain
  proof validation;
* `src/routes/proofs.ts` — request validation for the proof endpoints;
* the in-memory proof storage service (`saveProof` / `getProofsByWallet`).

JavaScript strings are modelled as Lean `String`, with character-wise
operations defined on `String.data` (the strings involved are ASCII hex
strings, addresses and short codes, for which Lean's `Char.toLower` /
`Char.toUpper` coincide with the JS ASCII case mapping).  JS numbers
that hold wei or raw storage values are modelled as `Nat` (the code
converts them to arbitrary-precision `BigInt` before arithmetic).
Fallible code returns `Except`; RPC and HTTP calls are oracles passed
in as explicit function-typed fields of an environment record.
-/

namespace ProofOfRiches

/-! ## JavaScript string primitives (ASCII fragment) -/

/-- JS `String.prototype.toLowerCase()` on the ASCII strings this system
handles: `Char.toLower` performs exactly the ASCII `A-Z → a-z` mapping. -/
def jsToLower (s : String) : String := String.mk (s.data.map Char.toLower)

/-- JS `String.prototype.toUpperCase()` on ASCII strings. -/
def jsToUpper (s : String) : String := String.mk (s.data.map Char.toUpper)

/-- JS `String.prototype.padStart(n, c)`: left-pad to length `n` with `c`;
a string already at least `n` long is returned unchanged. -/
def padStart (n : Nat) (c : Char) (s : String) : String :=
  String.mk (List.replicate (n - s.data.length) c ++ s.data)

/-- One hexadecimal digit, either case. -/
def isHexDigitChar (c : Char) : Bool :=
  c.isDigit || ('a' ≤ c && c ≤ 'f') || ('A' ≤ c && c ≤ 'F')

/-- Model of the address well-formedness test of the `ethers` and `web3`
libraries (`ethers.isAddress` / `Web3.utils.isAddress`): an optional `0x`
followed by exactly 40 hexadecimal digits.  Both libraries additionally
accept EIP-55 mixed-case strings only when a keccak-derived checksum
matches; the model keeps the uniform-case fragment (the checksum lives in
the library, not in this repository), so it accepts no string whose letter
cases are mixed. -/
def ethAddrOk (s : String) : Bool :=
  let t := if s.data.take 2 == ['0', 'x'] then s.data.drop 2 else s.data
  t.length == 40 && t.all isHexDigitChar &&
    (t.all (fun c => !c.isUpper) || t.all (fun c => !c.isLower))

/-! ### Character-level facts about the ASCII case maps -/

theorem char_toNat_ofNat_valid (m : Nat) (h : m < 55296) :
    (Char.ofNat m).toNat = m := by
  unfold Char.ofNat
  rw [dif_pos (Or.inl h)]
  rfl

theorem char_toLower_toLower (c : Char) : c.toLower.toLower = c.toLower := by
  unfold Char.toLower
  by_cases h : c.toNat ≥ 65 ∧ c.toNat ≤ 90
  · rw [if_pos h]
    have hv : (Char.ofNat (c.toNat + 32)).toNat = c.toNat + 32 :=
      char_toNat_ofNat_valid _ (by omega)
    rw [if_neg]
    rw [hv]
    omega
  · rw [if_neg h, if_neg h]

theorem jsToLower_idem (s : String) : jsToLower (jsToLower s) = jsToLower s := by
  unfold jsToLower
  refine congrArg String.mk ?_
  show (s.data.map Char.toLower).map Char.toLower = s.data.map Char.toLower
  rw [List.map_map]
  exact List.map_congr_left (fun c _ => char_toLower_toLower c)

/-- A hexadecimal digit never lowercases to `'x'` (its lowercase form is a
decimal digit or one of `a-f`, all below `'x'`). -/
theorem toLower_hex_ne_x (c : Char) (h : isHexDigitChar c = true) :
    c.toLower ≠ 'x' := by
  have hd : c.isDigit = true ∨ (97 ≤ c.toNat ∧ c.toNat ≤ 102) ∨
      (65 ≤ c.toNat ∧ c.toNat ≤ 70) := by
    simp only [isHexDigitChar, Bool.or_eq_true, Bool.and_eq_true,
      decide_eq_true_eq] at h
    rcases h with (h | h) | h
    · exact Or.inl h
    · exact Or.inr (Or.inl ⟨h.1, h.2⟩)
    · exact Or.inr (Or.inr ⟨h.1, h.2⟩)
  have hn : 48 ≤ c.toNat ∧ c.toNat ≤ 57 ∨ (97 ≤ c.toNat ∧ c.toNat ≤ 102) ∨
      (65 ≤ c.toNat ∧ c.toNat ≤ 70) := by
    rcases hd with h | h
    · simp only [Char.isDigit, Bool.and_eq_true, decide_eq_true_eq] at h
      exact Or.inl ⟨h.1, h.2⟩
    · exact Or.inr h
  intro he
  have : c.toLower.toNat = 120 := by rw [he]; rfl
  unfold Char.toLower at this
  by_cases hc : c.toNat ≥ 65 ∧ c.toNat ≤ 90
  · rw [if_pos hc] at this
    rw [char_toNat_ofNat_valid _ (by omega)] at this
    omega
  · rw [if_neg hc] at this
    omega

/-! ### JS `Number.prototype.toString(radix)` for natural numbers -/

/-- The digit characters JS uses for radix rendering: `0-9` then `a-z`. -/
def digitChar36 (k : Nat) : Char :=
  if k < 10 then Char.ofNat (48 + k) else Char.ofNat (87 + k)

/-- Most-significant-first digit accumulation; `fuel ≥ n` suffices since the
digit count of `n` in any base `≥ 2` is at most `n`. -/
def toBaseDigits (b : Nat) : Nat → Nat → List Char → List Char
  | 0, _, acc => acc
  | fuel + 1, n, acc =>
    if n == 0 then acc else toBaseDigits b fuel (n / b) (digitChar36 (n % b) :: acc)

/-- JS `n.toString(b)` for a natural number `n`: lowercase digits, no sign,
`"0"` for zero.  Used by the code at radix 16 (slot index rendering) and
radix 36 (verification-code timestamp). -/
def jsNatToString (b : Nat) (n : Nat) : String :=
  if n == 0 then "0" else String.mk (toBaseDigits b n n [])

/-- JS `String.prototype.replace(pat, '')` with a plain-string pattern:
removes the first occurrence of `pat` and leaves the string unchanged when
`pat` does not occur. -/
def removeFirstOcc (pat : List Char) : List Char → List Char
  | [] => []
  | c :: cs =>
    if pat.isPrefixOf (c :: cs) then (c :: cs).drop pat.length
    else c :: removeFirstOcc pat cs

theorem removeFirstOcc_cons_ox (rest : List Char) :
    removeFirstOcc ['0', 'x'] ('0' :: 'x' :: rest) = rest := by
  simp [removeFirstOcc, List.isPrefixOf]

theorem removeFirstOcc_no_x (l : List Char) (h : ∀ c ∈ l, c ≠ 'x') :
    removeFirstOcc ['0', 'x'] l = l := by
  induction l with
  | nil => rfl
  | cons c cs ih =>
    have hcs : ∀ c' ∈ cs, c' ≠ 'x' := fun c' hm => h c' (List.mem_cons_of_mem _ hm)
    unfold removeFirstOcc
    rw [if_neg, ih hcs]
    intro hpre
    match cs, hpre with
    | [], hpre => simp [List.isPrefixOf] at hpre
    | c' :: cs', hpre =>
      simp only [List.isPrefixOf, Bool.and_eq_true, beq_iff_eq] at hpre
      exact hcs c' (List.mem_cons_self _ _) hpre.2.1.symm

theorem padStart_data_length (n : Nat) (c : Char) (s : String) :
    (padStart n c s).data.length = max n s.data.length := by
  simp only [padStart, List.length_append, List.length_replicate]
  omega

theorem take_two_ox (l : List Char) (h : l.take 2 = ['0', 'x']) :
    ∃ rest, l = '0' :: 'x' :: rest := by
  match l with
  | [] => simp at h
  | [a] => simp at h
  | a :: b :: rest =>
    simp only [List.take, List.cons.injEq] at h
    exact ⟨rest, by rw [h.1, h.2.1]⟩

/-! ## `src/services/ethereumProofService.ts` -/

namespace EthereumProofService

def USDT_DECIMALS : Nat := 6

def BALANCE_SLOT : Nat := 2

/-- `calculateBalanceSlot` of `EthereumProofService`.  `keccak256` stands
for `Web3.utils.keccak256`, an external library primitive, so it is a
parameter of the embedding; the function under verification is the
construction of its 64-byte preimage.  A malformed address throws
(`Except.error`). -/
def calculateBalanceSlot (keccak256 : String → String) (address : String) :
    Except String String :=
  if !(ethAddrOk address) then .error "Invalid address format"
  else
    let addressPadded :=
      padStart 64 '0' (String.mk (removeFirstOcc ['0', 'x'] (jsToLower address).data))
    let slotPadded := padStart 64 '0' (jsNatToString 16 BALANCE_SLOT)
    let key := "0x" ++ addressPadded ++ slotPadded
    .ok (keccak256 key)

/-- The storage key as the spec words it: the 32-byte left-zero-padded
account address (its 40 hex digits, lowercased, prefix removed)
concatenated with the 32-byte left-zero-padded slot index `2`, as a
`0x`-prefixed string of 128 hex digits (64 bytes). -/
def specSlotKey (address : String) : String :=
  let digits :=
    if (jsToLower address).data.take 2 == ['0', 'x'] then
      (jsToLower address).data.drop 2
    else (jsToLower address).data
  "0x" ++ padStart 64 '0' (String.mk digits) ++ padStart 64 '0' "2"

theorem ethAddrOk_stripped (address : String) (h : ethAddrOk address = true) :
    removeFirstOcc ['0', 'x'] (jsToLower address).data
      = (if (jsToLower address).data.take 2 == ['0', 'x'] then
          (jsToLower address).data.drop 2
         else (jsToLower address).data)
    ∧ (if (jsToLower address).data.take 2 == ['0', 'x'] then
          (jsToLower address).data.drop 2
       else (jsToLower address).data).length = 40 := by
  simp only [ethAddrOk, Bool.and_eq_true, beq_iff_eq, List.all_eq_true] at h
  by_cases hp : address.data.take 2 = ['0', 'x']
  · obtain ⟨rest, hrest⟩ := take_two_ox _ hp
    rw [hp] at h
    have hlow : (jsToLower address).data = '0' :: 'x' :: rest.map Char.toLower := by
      simp [jsToLower, hrest]
    have hlen : rest.length = 40 := by
      have := h.1.1
      rw [hrest] at this
      simpa using this
    rw [hlow]
    refine ⟨?_, ?_⟩
    · simp [removeFirstOcc_cons_ox]
    · simp [hlen]
  · have hpl : ¬ (jsToLower address).data.take 2 = ['0', 'x'] := by
      intro hc
      obtain ⟨rest, hrest⟩ := take_two_ox _ hc
      have hx : 'x' ∈ (jsToLower address).data := by
        rw [hrest]; exact List.mem_cons_of_mem _ (List.mem_cons_self _ _)
      simp only [jsToLower, List.mem_map] at hx
      obtain ⟨c, hc1, hc2⟩ := hx
      have hhex : isHexDigitChar c = true := by
        rw [if_neg (by simpa using hp)] at h
        have hdrop := hrest
        exact h.1.2 c hc1
      exact toLower_hex_ne_x c hhex hc2
    rw [if_neg (by simpa using hpl)]
    have hlen : address.data.length = 40 := by
      rw [if_neg (by simpa using hp)] at h
      simpa using h.1.1
    refine ⟨?_, ?_⟩
    · apply removeFirstOcc_no_x
      intro c hm
      simp only [jsToLower, List.mem_map] at hm
      obtain ⟨c', hc1, hc2⟩ := hm
      have hhex : isHexDigitChar c' = true := by
        rw [if_neg (by simpa using hp)] at h
        exact h.1.2 c' hc1
      rw [← hc2]
      exact toLower_hex_ne_x c' hhex
    · simp [jsToLower, hlen]

/-- C1: for every address passing the library validity test,
`calculateBalanceSlot` returns the keccak-256 hash of exactly the 64-byte
string formed by concatenating the 32-byte left-zero-padded account
address with the 32-byte left-zero-padded mapping slot index 2 (a
`0x`-prefixed string of 128 hex digits), and the derivation is
deterministic: identical inputs yield identical slot hashes. -/
theorem calculateBalanceSlot_spec (keccak256 : String → String) (address : String)
    (h : ethAddrOk address = true) :
    calculateBalanceSlot keccak256 address = .ok (keccak256 (specSlotKey address))
    ∧ (specSlotKey address).length = 130
    ∧ ∀ a₂, a₂ = address →
        calculateBalanceSlot keccak256 a₂ = calculateBalanceSlot keccak256 address := by
  obtain ⟨hstr, hlen⟩ := ethAddrOk_stripped address h
  refine ⟨?_, ?_, ?_⟩
  · have h2 : jsNatToString 16 BALANCE_SLOT = "2" := by decide
    simp only [calculateBalanceSlot, specSlotKey]
    rw [show (!(ethAddrOk address)) = false from by simp [h]]
    simp only [Bool.false_eq_true, if_false, hstr, h2]
  · show (specSlotKey address).data.length = 130
    unfold specSlotKey
    simp only [String.data_append, List.length_append]
    rw [padStart_data_length, padStart_data_length]
    simp only [String.mk] at hlen ⊢
    rw [show (String.mk (if (jsToLower address).data.take 2 == ['0', 'x'] then
          (jsToLower address).data.drop 2 else (jsToLower address).data)).data.length = 40
      from hlen]
    rfl
  · intro a₂ ha
    rw [ha]

/-- C1 witness: the slot-key construction at the identity in place of the
hash and a concrete mainnet-shaped address. -/
theorem calculateBalanceSlot_spec_witness :
    calculateBalanceSlot (fun s => s) "0x6b175474e89094c44da98b954eedeac495271d0f"
        = .ok (specSlotKey "0x6b175474e89094c44da98b954eedeac495271d0f")
    ∧ (specSlotKey "0x6b175474e89094c44da98b954eedeac495271d0f").length = 130
    ∧ ∀ a2, a2 = "0x6b175474e89094c44da98b954eedeac495271d0f" →
        calculateBalanceSlot (fun s => s) a2
          = calculateBalanceSlot (fun s => s) "0x6b175474e89094c44da98b954eedeac495271d0f" :=
  calculateBalanceSlot_spec (fun s => s)
    "0x6b175474e89094c44da98b954eedeac495271d0f" (by decide)

/-- The raw stored slot value → token-unit conversion performed by
`generateBalanceProof`:
`BigInt(balanceWei) / BigInt(Math.pow(10, USDT_DECIMALS))`.
`Math.pow(10, 6)` is the IEEE-754 double `1000000.0`, which represents
`10 ^ 6` exactly, so `BigInt` of it is exactly `1000000`; `BigInt`
division truncates toward zero, which on these non-negative values is
floor division.  The raw value is a 256-bit word, modelled as `Nat`. -/
def rawToUsdtUnits (raw : Nat) : Nat := raw / 1000000

/-- C6: the conversion of the raw stored slot value into a token-unit
balance is exact integer floor division by `10 ^ decimals` with
`decimals = 6`, with no precision loss for arbitrarily large values
(the two inequalities are the floor-division characterisation over the
unbounded integers). -/
theorem rawToUsdtUnits_floor_div (raw : Nat) :
    rawToUsdtUnits raw = raw / 10 ^ USDT_DECIMALS
    ∧ USDT_DECIMALS = 6
    ∧ rawToUsdtUnits raw * 10 ^ USDT_DECIMALS ≤ raw
    ∧ raw < (rawToUsdtUnits raw + 1) * 10 ^ USDT_DECIMALS := by
  have h6 : (10 : Nat) ^ USDT_DECIMALS = 1000000 := by norm_num [USDT_DECIMALS]
  have hdm := Nat.div_add_mod raw 1000000
  have hml : raw % 1000000 < 1000000 := Nat.mod_lt _ (by norm_num)
  refine ⟨by rw [h6]; rfl, rfl, ?_, ?_⟩
  · rw [h6]; unfold rawToUsdtUnits; omega
  · rw [h6]; unfold rawToUsdtUnits; omega

end EthereumProofService

/-! ## `src/utils/ethereumUtils.ts` — payment verification -/

namespace EthereumUtils

/-- The fields of an `ethers.TransactionResponse` that `verifyPayment`
reads: the destination (JS field `to`, here `toAddr` since `to` is a
reserved token; nullable for contract creations) and `value` in wei. -/
structure EthTx where
  toAddr : Option String
  value : Nat
deriving DecidableEq

/-- The field of an `ethers.TransactionReceipt` that `verifyPayment`
reads: the execution `status` (1 = success). -/
structure EthReceipt where
  status : Nat
deriving DecidableEq

/-- The provider RPC surface `verifyPayment` touches, as an oracle:
`provider.getTransaction` and `provider.getTransactionReceipt`, each
returning the value (`none` = not found) or a transport-level failure. -/
structure RpcEnv where
  getTransaction : String → Except String (Option EthTx)
  getTransactionReceipt : String → Except String (Option EthReceipt)

/-- The receipt stage of `verifyPayment`: fetch the transaction receipt
(`null` when unconfirmed) and require execution status 1. -/
def checkReceipt (env : RpcEnv) (txHash : String) (tx : EthTx) :
    Except String (Option EthTx) :=
  match env.getTransactionReceipt txHash with
  | .error e => .error e
  | .ok none => .ok none
  | .ok (some rcpt) => if rcpt.status != 1 then .ok none else .ok (some tx)

/-- The per-transaction stage of `verifyPayment`: `null` when the
transaction is absent; case-insensitive destination comparison
(`tx.to?.toLowerCase() !== toAddress.toLowerCase()`); arbitrary-precision
value comparison (`BigInt(tx.value) < BigInt(minAmount)`); then the
receipt stage. -/
def checkTx (env : RpcEnv) (txHash toAddress : String) (minAmountWei : Nat) :
    Option EthTx → Except String (Option EthTx)
  | none => .ok none
  | some tx =>
    if !(Option.map jsToLower tx.toAddr == some (jsToLower toAddress)) then .ok none
    else if tx.value < minAmountWei then .ok none
    else checkReceipt env txHash tx

/-- The body of `verifyPayment` before its `catch` clause: recipient
validity (throws on a malformed recipient), transaction fetch, then the
check stages above, in the order the source performs them. -/
def verifyPaymentBody (env : RpcEnv) (txHash toAddress : String)
    (minAmountWei : Nat) : Except String (Option EthTx) :=
  if !(ethAddrOk toAddress) then .error ("Invalid recipient address: " ++ toAddress)
  else
    match env.getTransaction txHash with
    | .error e => .error e
    | .ok otx => checkTx env txHash toAddress minAmountWei otx

/-- `verifyPayment` of `EthereumUtils`: the body above with its `catch`
clause, which re-throws every error wrapped in a reported failure
(`throw new Error('Failed to verify payment: ' + error)`), never
converting an error into a `null` result. -/
def verifyPayment (env : RpcEnv) (txHash toAddress : String)
    (minAmountWei : Nat) : Except String (Option EthTx) :=
  match verifyPaymentBody env txHash toAddress minAmountWei with
  | .error e => .error ("Failed to verify payment: " ++ e)
  | .ok v => .ok v

/-- All the payment checks of the spec at once: the transaction exists,
its destination equals the expected recipient case-insensitively, its
value is at least the required minimum (equality passes), its receipt
exists and the receipt's status is success. -/
def paymentChecksPass (otx : Option EthTx) (orcpt : Option EthReceipt)
    (toAddress : String) (minAmountWei : Nat) : Bool :=
  match otx with
  | none => false
  | some tx =>
    (Option.map jsToLower tx.toAddr == some (jsToLower toAddress))
      && decide (minAmountWei ≤ tx.value)
      && (match orcpt with
          | none => false
          | some rcpt => rcpt.status == 1)

theorem verifyPayment_ok_iff (env : RpcEnv) (txHash toAddress : String)
    (minAmountWei : Nat) (v : Option EthTx) :
    verifyPayment env txHash toAddress minAmountWei = .ok v
      ↔ verifyPaymentBody env txHash toAddress minAmountWei = .ok v := by
  unfold verifyPayment
  cases hb : verifyPaymentBody env txHash toAddress minAmountWei <;> simp

theorem body_eq_checkTx (env : RpcEnv) (txHash toAddress : String)
    (minAmountWei : Nat) (otx : Option EthTx)
    (haddr : ethAddrOk toAddress = true)
    (htx : env.getTransaction txHash = .ok otx) :
    verifyPaymentBody env txHash toAddress minAmountWei
      = checkTx env txHash toAddress minAmountWei otx := by
  unfold verifyPaymentBody
  rw [show (!(ethAddrOk toAddress)) = false from by simp [haddr], htx]
  rfl

theorem body_eq_error (env : RpcEnv) (txHash toAddress : String)
    (minAmountWei : Nat) (e : String)
    (haddr : ethAddrOk toAddress = true)
    (htx : env.getTransaction txHash = .error e) :
    verifyPaymentBody env txHash toAddress minAmountWei = .error e := by
  unfold verifyPaymentBody
  rw [show (!(ethAddrOk toAddress)) = false from by simp [haddr], htx]
  rfl

/-- C2: under a responsive RPC endpoint, `verifyPayment` returns `null`
exactly when one of the payment checks fails (transaction absent,
recipient mismatch under case-insensitive comparison, value strictly
below the minimum — equality passes — receipt absent, or failed
execution status), and returns a non-null transaction exactly when all
checks pass. -/
theorem verifyPayment_null_iff_checks (env : RpcEnv) (txHash toAddress : String)
    (minAmountWei : Nat) (otx : Option EthTx) (orcpt : Option EthReceipt)
    (haddr : ethAddrOk toAddress = true)
    (htx : env.getTransaction txHash = .ok otx)
    (hrcpt : env.getTransactionReceipt txHash = .ok orcpt) :
    (verifyPayment env txHash toAddress minAmountWei = .ok none
       ↔ paymentChecksPass otx orcpt toAddress minAmountWei = false)
    ∧ ∀ tx, verifyPayment env txHash toAddress minAmountWei = .ok (some tx)
       ↔ paymentChecksPass otx orcpt toAddress minAmountWei = true ∧ otx = some tx := by
  have heq : verifyPaymentBody env txHash toAddress minAmountWei
      = .ok (if paymentChecksPass otx orcpt toAddress minAmountWei then otx else none) := by
    rw [body_eq_checkTx env txHash toAddress minAmountWei otx haddr htx]
    cases otx with
    | none => simp [checkTx, paymentChecksPass]
    | some tx =>
      by_cases h1 : Option.map jsToLower tx.toAddr = some (jsToLower toAddress)
      · by_cases h2 : tx.value < minAmountWei
        · have h2' : ¬ (minAmountWei ≤ tx.value) := by omega
          simp [checkTx, paymentChecksPass, h1, h2, h2']
        · have h2' : minAmountWei ≤ tx.value := by omega
          simp only [checkTx]
          rw [if_neg (by simp [h1]), if_neg h2]
          unfold checkReceipt
          rw [hrcpt]
          cases orcpt with
          | none => simp [paymentChecksPass, h1, h2']
          | some rcpt =>
            by_cases h3 : rcpt.status = 1
            · simp [paymentChecksPass, h1, h2', h3]
            · simp [paymentChecksPass, h1, h2', h3]
      · simp [checkTx, paymentChecksPass, h1]
  constructor
  · rw [verifyPayment_ok_iff, heq]
    cases otx with
    | none => simp [paymentChecksPass]
    | some tx =>
      by_cases hp : paymentChecksPass (some tx) orcpt toAddress minAmountWei = true
      · simp [hp]
      · simp only [Bool.not_eq_true] at hp
        simp [hp]
  · intro tx
    rw [verifyPayment_ok_iff, heq]
    cases otx with
    | none => simp [paymentChecksPass]
    | some tx' =>
      by_cases hp : paymentChecksPass (some tx') orcpt toAddress minAmountWei = true
      · simp [hp, eq_comm]
      · simp only [Bool.not_eq_true] at hp
        simp [hp]

/-- A transaction of value exactly 5 wei whose destination is the
expected recipient written in the opposite letter case. -/
def c2Tx : EthTx :=
  { toAddr := some "0xAAAAAAAAAAAAAAAAAAAAAAAAAAAAAAAAAAAAAAAA", value := 5 }

def c2Rcpt : EthReceipt := { status := 1 }

/-- A responsive RPC endpoint answering `c2Tx` and a successful receipt. -/
def c2Env : RpcEnv :=
  { getTransaction := fun _ => .ok (some c2Tx),
    getTransactionReceipt := fun _ => .ok (some c2Rcpt) }

/-- C2 witness: the characterisation at a concrete environment where the
value equals the minimum exactly and the recipient matches only up to
letter case. -/
theorem verifyPayment_null_iff_checks_witness :
    (verifyPayment c2Env "0xtx" "0xaaaaaaaaaaaaaaaaaaaaaaaaaaaaaaaaaaaaaaaa" 5 = .ok none
       ↔ paymentChecksPass (some c2Tx) (some c2Rcpt)
           "0xaaaaaaaaaaaaaaaaaaaaaaaaaaaaaaaaaaaaaaaa" 5 = false)
    ∧ ∀ tx, verifyPayment c2Env "0xtx" "0xaaaaaaaaaaaaaaaaaaaaaaaaaaaaaaaaaaaaaaaa" 5
          = .ok (some tx)
       ↔ paymentChecksPass (some c2Tx) (some c2Rcpt)
           "0xaaaaaaaaaaaaaaaaaaaaaaaaaaaaaaaaaaaaaaaa" 5 = true
         ∧ (some c2Tx : Option EthTx) = some tx :=
  verifyPayment_null_iff_checks c2Env "0xtx"
    "0xaaaaaaaaaaaaaaaaaaaaaaaaaaaaaaaaaaaaaaaa" 5 (some c2Tx) (some c2Rcpt)
    (by decide) rfl rfl

/-- C8: `verifyPayment` surfaces RPC transport failures as a reported
error (wrapped by its catch clause), never as a `null` result: a `null`
return can only arise from a failed payment check on successfully
fetched data, so callers can distinguish a wrong payment from a
verification that could not be performed. -/
theorem verifyPayment_error_vs_null (env : RpcEnv) (txHash toAddress : String)
    (minAmountWei : Nat) :
    (∀ e, ethAddrOk toAddress = true → env.getTransaction txHash = .error e →
        verifyPayment env txHash toAddress minAmountWei
          = .error ("Failed to verify payment: " ++ e))
    ∧ (verifyPayment env txHash toAddress minAmountWei = .ok none →
        ∃ otx, env.getTransaction txHash = .ok otx ∧
          (otx = none ∨ ∃ tx, otx = some tx ∧
            (¬ Option.map jsToLower tx.toAddr = some (jsToLower toAddress)
             ∨ tx.value < minAmountWei
             ∨ ∃ orcpt, env.getTransactionReceipt txHash = .ok orcpt ∧
                 (orcpt = none ∨ ∃ rcpt, orcpt = some rcpt ∧ rcpt.status ≠ 1))))
    ∧ (∀ e tx, ethAddrOk toAddress = true →
        env.getTransaction txHash = .ok (some tx) →
        Option.map jsToLower tx.toAddr = some (jsToLower toAddress) →
        ¬ tx.value < minAmountWei →
        env.getTransactionReceipt txHash = .error e →
        verifyPayment env txHash toAddress minAmountWei
          = .error ("Failed to verify payment: " ++ e)) := by
  refine ⟨?_, ?_, ?_⟩
  · intro e haddr herr
    unfold verifyPayment
    rw [body_eq_error env txHash toAddress minAmountWei e haddr herr]
  swap
  · intro e tx haddr htx h1 h2 herr
    unfold verifyPayment
    rw [body_eq_checkTx env txHash toAddress minAmountWei (some tx) haddr htx]
    simp only [checkTx]
    rw [if_neg (by simp [h1]), if_neg h2]
    unfold checkReceipt
    rw [herr]
  · intro hnull
    rw [verifyPayment_ok_iff] at hnull
    by_cases haddr : ethAddrOk toAddress = true
    · cases htx : env.getTransaction txHash with
      | error e =>
        rw [body_eq_error env txHash toAddress minAmountWei e haddr htx] at hnull
        simp at hnull
      | ok otx =>
        rw [body_eq_checkTx env txHash toAddress minAmountWei otx haddr htx] at hnull
        cases otx with
        | none => exact ⟨none, rfl, Or.inl rfl⟩
        | some tx =>
          refine ⟨some tx, rfl, Or.inr ⟨tx, rfl, ?_⟩⟩
          by_cases h1 : Option.map jsToLower tx.toAddr = some (jsToLower toAddress)
          · by_cases h2 : tx.value < minAmountWei
            · exact Or.inr (Or.inl h2)
            · simp only [checkTx] at hnull
              rw [if_neg (by simp [h1]), if_neg h2] at hnull
              unfold checkReceipt at hnull
              cases hr : env.getTransactionReceipt txHash with
              | error e =>
                rw [hr] at hnull
                simp at hnull
              | ok orcpt =>
                rw [hr] at hnull
                refine Or.inr (Or.inr ⟨orcpt, rfl, ?_⟩)
                cases orcpt with
                | none => exact Or.inl rfl
                | some rcpt =>
                  by_cases h3 : rcpt.status = 1
                  · simp [h3] at hnull
                  · exact Or.inr ⟨rcpt, rfl, h3⟩
          · exact Or.inl h1
    · unfold verifyPaymentBody at hnull
      rw [show (!(ethAddrOk toAddress)) = true from by simp [haddr]] at hnull
      simp at hnull

end EthereumUtils

/-! ## `src/services/zkProofService.ts` -/

namespace ZKProofService

/-- The SP1 prover artifact: proof bytes, public inputs and verifying-key
hash, each an opaque `0x`-prefixed hex string. -/
structure SP1ProverResponse where
  proof : String
  public_inputs : String
  vkey_hash : String
deriving DecidableEq

deriving instance DecidableEq for Except

/-- `getMockProof`: the deterministic placeholder artifact — a fixed
512-hex-digit proof, 512-hex-digit public inputs and 64-hex-digit vkey
hash. -/
def getMockProof : SP1ProverResponse :=
  { proof := "0x" ++ String.mk (List.replicate 256 'a') ++ String.mk (List.replicate 256 'b'),
    public_inputs := "0x" ++ String.mk (List.replicate 256 'c') ++ String.mk (List.replicate 256 'd'),
    vkey_hash := "0x" ++ String.mk (List.replicate 64 'e') }

/-- The structured inputs `generateProof` hands to the prover. -/
structure SP1Inputs where
  wallet : String
  balance : String
  min_amount : String
deriving DecidableEq

/-- What `callSP1Prover` reads off the `axios.post` response: HTTP status
and the three optional payload fields (each defaulted when absent). -/
structure AxiosResponse where
  status : Nat
  statusText : String
  dataProof : Option String
  dataPublicInputs : Option String
  dataVkeyHash : Option String
deriving DecidableEq

/-- The service's constructor state together with the process-environment
variables its methods read at call time, and the HTTP transport as an
oracle (`sp1Post` models the outcome of `axios.post` to the prover). -/
structure ServiceEnv where
  nodeEnv : Option String
  mockSp1 : Option String
  sp1ProverUrl : String
  sp1ApiKey : String
  backendWallet : String
  proofCostWei : String
  sp1Post : SP1Inputs → Except String AxiosResponse

/-- The mock-mode test of `callSP1Prover`, verbatim:
`process.env.NODE_ENV === 'development' && process.env.MOCK_SP1 === 'true'`. -/
def usesMockSP1 (env : ServiceEnv) : Bool :=
  env.nodeEnv == some "development" && env.mockSp1 == some "true"

/-- The live branch of `callSP1Prover`: post to the prover network,
reject a non-200 status, default missing payload fields; the `catch`
clause wraps any failure in the reported message. -/
def liveSP1Call (env : ServiceEnv) (inputs : SP1Inputs) :
    Except String SP1ProverResponse :=
  match env.sp1Post inputs with
  | .error e => .error ("SP1 Prover API call failed: " ++ e)
  | .ok resp =>
    if resp.status != 200 then
      .error ("SP1 Prover API call failed: SP1 API error: "
        ++ toString resp.status ++ " - " ++ resp.statusText)
    else
      .ok { proof := resp.dataProof.getD "0x",
            public_inputs := resp.dataPublicInputs.getD "0x",
            vkey_hash := resp.dataVkeyHash.getD "" }

/-- `callSP1Prover`: the mock branch is taken exactly when both the
development environment and the explicit `MOCK_SP1` flag are set;
otherwise the live prover is called. -/
def callSP1Prover (env : ServiceEnv) (inputs : SP1Inputs) :
    Except String SP1ProverResponse :=
  if usesMockSP1 env then .ok getMockProof else liveSP1Call env inputs

/-- A fixed live-prover HTTP answer used by the C3 counterexample. -/
def c3LiveAnswer : AxiosResponse :=
  { status := 200,
    statusText := "OK",
    dataProof := some "0x1234",
    dataPublicInputs := some "0x5678",
    dataVkeyHash := some "0x9abc" }

/-- A configuration with no prover credential (`SP1_API_KEY` empty) and
even the `MOCK_SP1` flag set, but `NODE_ENV` not `'development'`; the
transport would answer `c3LiveAnswer`. -/
def c3Env : ServiceEnv :=
  { nodeEnv := some "production",
    mockSp1 := some "true",
    sp1ProverUrl := "https://api.succinct.xyz/api/provers/",
    sp1ApiKey := "",
    backendWallet := "",
    proofCostWei := "1000000000000000",
    sp1Post := fun _ => .ok c3LiveAnswer }

/-- C3 counterexample: with no prover credential configured (and the
development flag `MOCK_SP1` even set to `'true'`), `callSP1Prover` still
takes the live path whenever `NODE_ENV` is not `'development'` — the
claimed "no credential ⇒ mock" selection does not hold. -/
theorem callSP1Prover_not_mock_without_dev :
    c3Env.sp1ApiKey = "" ∧ c3Env.mockSp1 = some "true"
    ∧ callSP1Prover c3Env { wallet := "w", balance := "1", min_amount := "1" }
        = .ok { proof := "0x1234", public_inputs := "0x5678", vkey_hash := "0x9abc" }
    ∧ ¬ callSP1Prover c3Env { wallet := "w", balance := "1", min_amount := "1" }
        = .ok getMockProof := by decide

/-- C3 amended: mock mode is selected exactly when `NODE_ENV` is
`'development'` AND `MOCK_SP1` is `'true'` (the prover credential plays
no role in mode selection); the selection depends only on configuration,
not on the request, and the mock artifact is the fixed deterministic
value `getMockProof` with 512 hex digits of proof and of public
inputs. -/
theorem callSP1Prover_mode (env : ServiceEnv) (i1 i2 : SP1Inputs) :
    (usesMockSP1 env = (env.nodeEnv == some "development" && env.mockSp1 == some "true"))
    ∧ (usesMockSP1 env = true →
        callSP1Prover env i1 = .ok getMockProof
        ∧ callSP1Prover env i1 = callSP1Prover env i2)
    ∧ (usesMockSP1 env = false → callSP1Prover env i1 = liveSP1Call env i1)
    ∧ getMockProof.proof.data.length = 514
    ∧ getMockProof.public_inputs.data.length = 514 := by
  refine ⟨rfl, ?_, ?_, by decide, by decide⟩
  · intro h
    constructor <;> simp [callSP1Prover, h]
  · intro h
    simp [callSP1Prover, h]

/-! ### Verification codes (`generateVerificationCode`) -/

/-- A lowercase base-36 digit: `0-9` or `a-z`. -/
def isLowerB36 (c : Char) : Bool := c.isDigit || ('a' ≤ c && c ≤ 'z')

/-- An uppercase base-36 digit: `0-9` or `A-Z` (the claim's `[0-9A-Z]`). -/
def isUpperB36 (c : Char) : Bool := c.isDigit || ('A' ≤ c && c ≤ 'Z')

/-- `generateVerificationCode`: `'proof_' + Date.now().toString(36) + '_'
+ Math.random().toString(36).substring(2, 8)`, uppercased.  The two
nondeterministic reads are parameters: the timestamp in milliseconds and
the base-36 rendering of the `Math.random()` result;
`substring(2, 8)` is drop 2 then take 6. -/
def generateVerificationCode (nowMs : Nat) (randRender : String) : String :=
  jsToUpper ("proof_" ++ jsNatToString 36 nowMs ++ "_"
    ++ String.mk ((randRender.data.drop 2).take 6))

/-- The strings `Math.random().toString(36)` can produce: `"0"` (for the
value 0) or `"0."` followed by at least one base-36 digit (JS engines
render non-decimal radixes in plain positional notation, never exponent
form, and `Math.random()` lies in `[0, 1)`). -/
def isRandomBase36Render (s : String) : Bool :=
  s == "0" || (s.data.take 2 == ['0', '.'] && !(s.data.drop 2).isEmpty
    && (s.data.drop 2).all isLowerB36)

/-- Decides the claim's pattern `PROOF_[0-9A-Z]+_[0-9A-Z]{6}`, anchored at
both ends; `[0-9A-Z]` excludes `_`, so the split at the final underscore
is forced and this matcher is exactly the regex. -/
def matchesProofPattern (s : String) : Bool :=
  let l := s.data
  (l.take 6 == "PROOF_".data) &&
    (let r := l.drop 6
     decide (8 ≤ r.length) && (r.take (r.length - 7)).all isUpperB36 &&
       (match r.drop (r.length - 7) with
        | '_' :: suffix => suffix.length == 6 && suffix.all isUpperB36
        | _ => false))

theorem digitChar36_lower : ∀ k, k < 36 → isLowerB36 (digitChar36 k) = true := by
  decide

theorem upperB36_toUpper (c : Char) (h : isLowerB36 c = true) :
    isUpperB36 c.toUpper = true := by
  have hcase : c.isDigit = true ∨ (97 ≤ c.toNat ∧ c.toNat ≤ 122) := by
    simp only [isLowerB36, Bool.or_eq_true, Bool.and_eq_true, decide_eq_true_eq] at h
    rcases h with h | h
    · exact Or.inl h
    · exact Or.inr ⟨h.1, h.2⟩
  rcases hcase with hd | hr
  · have hn : 48 ≤ c.toNat ∧ c.toNat ≤ 57 := by
      simp only [Char.isDigit, Bool.and_eq_true, decide_eq_true_eq] at hd
      exact ⟨hd.1, hd.2⟩
    unfold Char.toUpper
    rw [if_neg (by omega)]
    simp [isUpperB36, hd]
  · unfold Char.toUpper
    rw [if_pos ⟨by omega, by omega⟩]
    have ht : (Char.ofNat (c.toNat - 32)).toNat = c.toNat - 32 :=
      char_toNat_ofNat_valid _ (by omega)
    simp only [isUpperB36, Bool.or_eq_true, Bool.and_eq_true, decide_eq_true_eq]
    right
    constructor
    · show (65 : Nat) ≤ (Char.ofNat (c.toNat - 32)).toNat
      rw [ht]; omega
    · show (Char.ofNat (c.toNat - 32)).toNat ≤ 90
      rw [ht]; omega

theorem toBaseDigits_all36 (fuel : Nat) : ∀ n acc, acc.all isLowerB36 = true →
    (toBaseDigits 36 fuel n acc).all isLowerB36 = true := by
  induction fuel with
  | zero => intro n acc h; exact h
  | succ fuel ih =>
    intro n acc h
    unfold toBaseDigits
    by_cases h0 : (n == 0) = true
    · rw [if_pos h0]; exact h
    · rw [if_neg h0]
      apply ih
      simp only [List.all_cons, Bool.and_eq_true]
      exact ⟨digitChar36_lower _ (Nat.mod_lt _ (by norm_num)), h⟩

theorem toBaseDigits_length_ge (b : Nat) (fuel : Nat) :
    ∀ n acc, acc.length ≤ (toBaseDigits b fuel n acc).length := by
  induction fuel with
  | zero => intro n acc; exact Nat.le_refl _
  | succ fuel ih =>
    intro n acc
    unfold toBaseDigits
    by_cases h0 : (n == 0) = true
    · rw [if_pos h0]
    · rw [if_neg h0]
      calc acc.length ≤ (digitChar36 (n % b) :: acc).length := by simp
        _ ≤ _ := ih _ _

theorem jsNatToString36_facts (n : Nat) :
    (jsNatToString 36 n).data.all isLowerB36 = true
    ∧ 1 ≤ (jsNatToString 36 n).data.length := by
  unfold jsNatToString
  by_cases h0 : (n == 0) = true
  · rw [if_pos h0]
    constructor <;> decide
  · rw [if_neg h0]
    constructor
    · exact toBaseDigits_all36 n n [] rfl
    · have hn : n ≠ 0 := by simpa using h0
      obtain ⟨m, rfl⟩ := Nat.exists_eq_succ_of_ne_zero hn
      show 1 ≤ (toBaseDigits 36 (m + 1) (m + 1) []).length
      unfold toBaseDigits
      rw [if_neg (by simp)]
      calc 1 = (digitChar36 ((m + 1) % 36) :: ([] : List Char)).length := by simp
        _ ≤ _ := toBaseDigits_length_ge 36 m _ _

theorem jsToUpper_append (a b : String) :
    jsToUpper (a ++ b) = jsToUpper a ++ jsToUpper b := by
  unfold jsToUpper
  rw [String.data_append, List.map_append]
  rfl

theorem jsToUpper_all_upperB36 (l : List Char) (h : l.all isLowerB36 = true) :
    (l.map Char.toUpper).all isUpperB36 = true := by
  rw [List.all_eq_true] at h ⊢
  intro c hc
  rw [List.mem_map] at hc
  obtain ⟨c2, hc2, rfl⟩ := hc
  exact upperB36_toUpper c2 (h c2 hc2)

/-- C4 counterexample: `Math.random()` can return exactly 1/2 (a dyadic
double), whose base-36 rendering is `"0.i"`; `substring(2, 8)` of that has
a single character, so at timestamp 1000 (base 36: `"rs"`) the issued code
is `PROOF_RS_I`, whose random suffix has 1 character, not 6 — the code
fails `PROOF_[0-9A-Z]+_[0-9A-Z]{6}`. -/
theorem generateVerificationCode_short_suffix :
    isRandomBase36Render "0.i" = true
    ∧ generateVerificationCode 1000 "0.i" = "PROOF_RS_I"
    ∧ matchesProofPattern (generateVerificationCode 1000 "0.i") = false := by
  decide

/-- C4 amended: every code is the uppercased `proof_` + base-36 timestamp
+ `_` + random suffix, where the timestamp part is a nonempty `[0-9A-Z]`
string and the random suffix is a `[0-9A-Z]` string of AT MOST 6
characters (exactly 6 only when the float rendering is long enough):
codes match `PROOF_[0-9A-Z]+_[0-9A-Z]{0,6}`, not always `{6}`. -/
theorem generateVerificationCode_shape (nowMs : Nat) (randRender : String)
    (h : isRandomBase36Render randRender = true) :
    ∃ ts suf : String,
      generateVerificationCode nowMs randRender = "PROOF_" ++ ts ++ "_" ++ suf
      ∧ 1 ≤ ts.data.length ∧ ts.data.all isUpperB36 = true
      ∧ suf.data.length ≤ 6 ∧ suf.data.all isUpperB36 = true := by
  have hrand : ((randRender.data.drop 2).take 6).all isLowerB36 = true := by
    simp only [isRandomBase36Render, Bool.or_eq_true, Bool.and_eq_true,
      beq_iff_eq] at h
    rcases h with h | h
    · rw [h]
      decide
    · rw [List.all_eq_true]
      have hall := h.2
      rw [List.all_eq_true] at hall
      intro c hc
      exact hall c (List.mem_of_mem_take hc)
  refine ⟨jsToUpper (jsNatToString 36 nowMs),
          jsToUpper (String.mk ((randRender.data.drop 2).take 6)),
          ?_, ?_, ?_, ?_, ?_⟩
  · unfold generateVerificationCode
    rw [jsToUpper_append, jsToUpper_append, jsToUpper_append,
      show jsToUpper "proof_" = "PROOF_" from by decide,
      show jsToUpper "_" = "_" from by decide]
  · show 1 ≤ ((jsNatToString 36 nowMs).data.map Char.toUpper).length
    rw [List.length_map]
    exact (jsNatToString36_facts nowMs).2
  · exact jsToUpper_all_upperB36 _ (jsNatToString36_facts nowMs).1
  · show (((randRender.data.drop 2).take 6).map Char.toUpper).length ≤ 6
    rw [List.length_map]
    exact List.length_take_le _ _
  · exact jsToUpper_all_upperB36 _ hrand

/-- C4 witness: the amended shape at a concrete timestamp and random
rendering. -/
theorem generateVerificationCode_shape_witness :
    ∃ ts suf : String,
      generateVerificationCode 1700000 "0.k7q3zzp" = "PROOF_" ++ ts ++ "_" ++ suf
      ∧ 1 ≤ ts.data.length ∧ ts.data.all isUpperB36 = true
      ∧ suf.data.length ≤ 6 ∧ suf.data.all isUpperB36 = true :=
  generateVerificationCode_shape 1700000 "0.k7q3zzp" (by decide)

/-! ### Off-chain proof validation (`verifyProof`) -/

/-- The body of a `POST /verify-proof` request. -/
structure VerifyProofRequest where
  proof : String
  publicInputs : String
  wallet : String
  minAmount : String
  token : String
deriving DecidableEq

/-- The `VerifyProofResponse` fields `verifyProof` produces; the early
returns leave `wallet` and `token` absent (`none`). -/
structure VerifyProofResponse where
  isValid : Bool
  message : String
  wallet : Option String
  token : Option String
deriving DecidableEq

/-- `verifyProof` of `ZKProofService`: wallet and token address validity,
proof and public-inputs presence and minimal length (10), then the
structural check (`0x` markers and, redundantly, the two addresses
again).  The method reads none of the service's state and performs no
I/O; its `try/catch` cannot fire in this pure body, so the embedding is a
total function of the service state and the request. -/
def verifyProof (svc : ServiceEnv) (request : VerifyProofRequest) :
    VerifyProofResponse :=
  if !(ethAddrOk request.wallet) then
    { isValid := false, message := "Invalid wallet address",
      wallet := none, token := none }
  else if !(ethAddrOk request.token) then
    { isValid := false, message := "Invalid token address",
      wallet := none, token := none }
  else if request.proof == "" || decide (request.proof.data.length < 10) then
    { isValid := false, message := "Invalid proof format",
      wallet := none, token := none }
  else if request.publicInputs == "" || decide (request.publicInputs.data.length < 10) then
    { isValid := false, message := "Invalid public inputs",
      wallet := none, token := none }
  else
    let isValid := (request.proof.data.take 2 == ['0', 'x'])
      && (request.publicInputs.data.take 2 == ['0', 'x'])
      && ethAddrOk request.wallet && ethAddrOk request.token
    { isValid := isValid,
      message := if isValid then "Proof is valid" else "Proof verification failed",
      wallet := some request.wallet, token := some request.token }

/-- A default-constructed service configuration (no environment variables
set) for the closed counterexamples. -/
def anyServiceEnv : ServiceEnv :=
  { nodeEnv := none,
    mockSp1 := none,
    sp1ProverUrl := "https://api.succinct.xyz/api/provers/",
    sp1ApiKey := "",
    backendWallet := "",
    proofCostWei := "1000000000000000",
    sp1Post := fun _ => .error "unavailable" }

/-- A request whose proof field is shorter than 10 characters but whose
wallet is malformed. -/
def c7Req : VerifyProofRequest :=
  { proof := "0x1",
    publicInputs := "0xcccccccccc",
    wallet := "bad",
    minAmount := "5",
    token := "0xdddddddddddddddddddddddddddddddddddddddd" }

/-- C7 counterexample: a request with `proof.length < 10` whose wallet is
malformed is answered with `Invalid wallet address`, not the claimed
structural-format message `Invalid proof format` — the address checks
run first. -/
theorem verifyProof_short_proof_other_message :
    c7Req.proof.data.length < 10
    ∧ verifyProof anyServiceEnv c7Req
        = { isValid := false, message := "Invalid wallet address",
            wallet := none, token := none }
    ∧ (verifyProof anyServiceEnv c7Req).message ≠ "Invalid proof format" := by
  decide

/-- C7 amended: for requests whose wallet and token are well-formed
addresses, verifying the mock artifact's own `proof`/`publicInputs`
byte-for-byte yields `isValid = true` (the mock round-trip), and a
`proof` of length < 10 yields `isValid = false` with the
structural-format message `Invalid proof format`. -/
theorem verifyProof_mock_roundtrip (svc : ServiceEnv) (w mi t pf pi2 : String)
    (hw : ethAddrOk w = true) (ht : ethAddrOk t = true) :
    (verifyProof svc ⟨getMockProof.proof, getMockProof.public_inputs, w, mi, t⟩).isValid = true
    ∧ (pf.data.length < 10 →
        verifyProof svc ⟨pf, pi2, w, mi, t⟩
          = ⟨false, "Invalid proof format", none, none⟩) := by
  constructor
  · have h1 : getMockProof.proof ≠ "" := by decide
    have h2 : ¬ (getMockProof.proof.length < 10) := by decide
    have h3 : getMockProof.public_inputs ≠ "" := by decide
    have h4 : ¬ (getMockProof.public_inputs.length < 10) := by decide
    have h5 : List.take 2 getMockProof.proof.data = ['0', 'x'] := by decide
    have h6 : List.take 2 getMockProof.public_inputs.data = ['0', 'x'] := by decide
    simp [verifyProof, hw, ht, h1, h2, h3, h4, h5, h6]
  · intro hlen
    have h1 : pf.length < 10 := hlen
    simp [verifyProof, hw, ht, h1]

/-- C7 witness: the amended statement at a concrete wallet and token. -/
theorem verifyProof_mock_roundtrip_witness :
    (verifyProof anyServiceEnv ⟨getMockProof.proof, getMockProof.public_inputs,
        "0x1111111111111111111111111111111111111111", "1000",
        "0x2222222222222222222222222222222222222222"⟩).isValid = true
    ∧ (("0x1" : String).data.length < 10 →
        verifyProof anyServiceEnv ⟨"0x1", "0xq",
            "0x1111111111111111111111111111111111111111", "1000",
            "0x2222222222222222222222222222222222222222"⟩
          = ⟨false, "Invalid proof format", none, none⟩) :=
  verifyProof_mock_roundtrip anyServiceEnv
    "0x1111111111111111111111111111111111111111" "1000"
    "0x2222222222222222222222222222222222222222" "0x1" "0xq"
    (by decide) (by decide)

/-- C10: `verifyProof` is a pure, total function of the request alone:
it always returns a `VerifyProofResponse` (never throws), and two calls
agreeing on the five request fields return identical results, whatever
the service state (configuration, store, transport) of either call. -/
theorem verifyProof_deterministic (svc1 svc2 : ServiceEnv)
    (r1 r2 : VerifyProofRequest)
    (hp : r1.proof = r2.proof) (hpi : r1.publicInputs = r2.publicInputs)
    (hw : r1.wallet = r2.wallet) (hm : r1.minAmount = r2.minAmount)
    (ht : r1.token = r2.token) :
    verifyProof svc1 r1 = verifyProof svc2 r2 := by
  cases r1
  cases r2
  simp only at hp hpi hw hm ht
  subst hp hpi hw hm ht
  rfl

/-- C10 witness: identical requests under different service states. -/
theorem verifyProof_deterministic_witness :
    verifyProof anyServiceEnv c7Req = verifyProof c3Env c7Req :=
  verifyProof_deterministic anyServiceEnv c3Env c7Req c7Req rfl rfl rfl rfl rfl

end ZKProofService

/-! ## `src/routes/proofs.ts` — request validation for `POST /generate-proof` -/

namespace ProofsRoute

/-- The body of a `POST /generate-proof` request.  A field absent from the
JSON body destructures to `undefined`, which like `''` is falsy; the
model uses the empty string for an absent field. -/
structure GenerateProofRequest where
  wallet : String
  token : String
  minAmount : String
  txHash : String
deriving DecidableEq

/-- The whitespace characters relevant to `BigInt(string)` trimming. -/
def isJsWs (c : Char) : Bool :=
  c == ' ' || c == '\t' || c == '\n' || c == '\r'

/-- Strip leading and trailing whitespace, as `StringToBigInt` does. -/
def jsTrim (l : List Char) : List Char :=
  ((l.dropWhile isJsWs).reverse.dropWhile isJsWs).reverse

def isBinDigitChar (c : Char) : Bool := c == '0' || c == '1'

def isOctDigitChar (c : Char) : Bool := '0' ≤ c && c ≤ '7'

/-- Model of JS `BigInt(string)` success (the route's step-3 check wraps
`BigInt(minAmount)` in `try/catch`): after trimming, the empty string
(value 0), an optionally SIGNED nonempty run of decimal digits — so
negative integers parse — or an unsigned `0x`/`0o`/`0b` radix literal.
Anything else throws a `SyntaxError`. -/
def bigIntParses (s : String) : Bool :=
  match jsTrim s.data with
  | [] => true
  | '+' :: ds => !ds.isEmpty && ds.all Char.isDigit
  | '-' :: ds => !ds.isEmpty && ds.all Char.isDigit
  | '0' :: 'x' :: ds => !ds.isEmpty && ds.all isHexDigitChar
  | '0' :: 'X' :: ds => !ds.isEmpty && ds.all isHexDigitChar
  | '0' :: 'o' :: ds => !ds.isEmpty && ds.all isOctDigitChar
  | '0' :: 'O' :: ds => !ds.isEmpty && ds.all isOctDigitChar
  | '0' :: 'b' :: ds => !ds.isEmpty && ds.all isBinDigitChar
  | '0' :: 'B' :: ds => !ds.isEmpty && ds.all isBinDigitChar
  | ds => ds.all Char.isDigit

def decDigitVal (c : Char) : Nat := c.toNat - 48

def hexDigitVal (c : Char) : Nat :=
  if c.isDigit then c.toNat - 48
  else if 'a' ≤ c && c ≤ 'f' then c.toNat - 87
  else c.toNat - 55

def digitsVal (b : Nat) (digVal : Char → Nat) (ds : List Char) : Nat :=
  ds.foldl (fun acc c => acc * b + digVal c) 0

/-- The integer value `BigInt(string)` produces, `none` when it throws. -/
def bigIntValue (s : String) : Option Int :=
  match jsTrim s.data with
  | [] => some 0
  | '+' :: ds =>
    if !ds.isEmpty && ds.all Char.isDigit then some (digitsVal 10 decDigitVal ds) else none
  | '-' :: ds =>
    if !ds.isEmpty && ds.all Char.isDigit then some (-(digitsVal 10 decDigitVal ds : Nat)) else none
  | '0' :: 'x' :: ds =>
    if !ds.isEmpty && ds.all isHexDigitChar then some (digitsVal 16 hexDigitVal ds) else none
  | '0' :: 'X' :: ds =>
    if !ds.isEmpty && ds.all isHexDigitChar then some (digitsVal 16 hexDigitVal ds) else none
  | '0' :: 'o' :: ds =>
    if !ds.isEmpty && ds.all isOctDigitChar then some (digitsVal 8 decDigitVal ds) else none
  | '0' :: 'O' :: ds =>
    if !ds.isEmpty && ds.all isOctDigitChar then some (digitsVal 8 decDigitVal ds) else none
  | '0' :: 'b' :: ds =>
    if !ds.isEmpty && ds.all isBinDigitChar then some (digitsVal 2 decDigitVal ds) else none
  | '0' :: 'B' :: ds =>
    if !ds.isEmpty && ds.all isBinDigitChar then some (digitsVal 2 decDigitVal ds) else none
  | ds => if ds.all Char.isDigit then some (digitsVal 10 decDigitVal ds) else none

/-- The spec's input condition taken at its word: `minAmount` parses as a
NON-NEGATIVE integer. -/
def parsesAsNonNegInt (s : String) : Bool :=
  match bigIntValue s with
  | some v => decide (0 ≤ v)
  | none => false

/-- The route's step-4 check: `/^0x[a-fA-F0-9]{64}$/`. -/
def isTxHashFormat (s : String) : Bool :=
  match s.data with
  | '0' :: 'x' :: rest => rest.length == 64 && rest.all isHexDigitChar
  | _ => false

/-- What the `POST /generate-proof` handler does with a request before any
payment verification: reject with an HTTP status and error string, or
forward it to `zkProofService.generateProof`. -/
inductive RouteOutcome where
  | reject (status : Nat) (error : String)
  | callService (req : GenerateProofRequest)
deriving DecidableEq

/-- The validation ladder of `POST /generate-proof`, in source order:
missing fields (JS falsiness of the four strings), wallet and token
address validity, `BigInt(minAmount)` parseability, and the
transaction-hash regex.  Only a request surviving all five checks
reaches the service; the handler itself persists nothing either way. -/
def generateProofValidate (req : GenerateProofRequest) : RouteOutcome :=
  if req.wallet == "" || req.token == "" || req.minAmount == "" || req.txHash == "" then
    .reject 400 "Missing required fields: wallet, token, minAmount, txHash"
  else if !(ethAddrOk req.wallet) then .reject 400 "Invalid wallet address"
  else if !(ethAddrOk req.token) then .reject 400 "Invalid token address"
  else if !(bigIntParses req.minAmount) then .reject 400 "Invalid minAmount format"
  else if !(isTxHashFormat req.txHash) then .reject 400 "Invalid transaction hash format"
  else .callService req

/-- A request that is fully well-formed except that its `minAmount` is the
negative integer `-5`. -/
def c5Req : GenerateProofRequest :=
  { wallet := "0x1111111111111111111111111111111111111111",
    token := "0x2222222222222222222222222222222222222222",
    minAmount := "-5",
    txHash := "0x" ++ String.mk (List.replicate 64 'a') }

/-- C5 counterexample: `"-5"` does not parse as a non-negative integer,
yet the fully well-formed request carrying it passes the route's
validation and reaches the service — `BigInt('-5')` succeeds, so no 400
is reported for negative amounts. -/
theorem generateProofValidate_negative_passes :
    parsesAsNonNegInt "-5" = false
    ∧ bigIntParses "-5" = true
    ∧ generateProofValidate c5Req = .callService c5Req := by
  decide

/-- C5 amended: the route validates before any payment verification or
record creation, but the numeric check is only `BigInt(minAmount)`
parseability — sign is not checked, so negative integers are accepted;
every request whose `minAmount` fails to parse as an integer at all is
rejected with a client error (status 400) and never reaches the
service. -/
theorem generateProofValidate_bad_minAmount (req : GenerateProofRequest)
    (h : bigIntParses req.minAmount = false) :
    (∃ msg, generateProofValidate req = .reject 400 msg)
    ∧ ∀ r, generateProofValidate req ≠ .callService r := by
  have hmain : ∃ msg, generateProofValidate req = .reject 400 msg := by
    unfold generateProofValidate
    by_cases h1 : (req.wallet == "" || req.token == "" || req.minAmount == ""
        || req.txHash == "") = true
    · rw [if_pos h1]
      exact ⟨_, rfl⟩
    · rw [if_neg h1]
      by_cases h2 : (!(ethAddrOk req.wallet)) = true
      · rw [if_pos h2]
        exact ⟨_, rfl⟩
      · rw [if_neg h2]
        by_cases h3 : (!(ethAddrOk req.token)) = true
        · rw [if_pos h3]
          exact ⟨_, rfl⟩
        · rw [if_neg h3]
          rw [if_pos (by simp [h])]
          exact ⟨_, rfl⟩
  refine ⟨hmain, ?_⟩
  obtain ⟨msg, hm⟩ := hmain
  intro r hc
  rw [hm] at hc
  cases hc

/-- A request whose `minAmount` is not numeric at all. -/
def c5WitnessReq : GenerateProofRequest :=
  { wallet := "0x1111111111111111111111111111111111111111",
    token := "0x2222222222222222222222222222222222222222",
    minAmount := "12.5",
    txHash := "0x" ++ String.mk (List.replicate 64 'b') }

/-- C5 witness: the amended statement at a concrete malformed amount. -/
theorem generateProofValidate_bad_minAmount_witness :
    (∃ msg, generateProofValidate c5WitnessReq = .reject 400 msg)
    ∧ ∀ r, generateProofValidate c5WitnessReq ≠ .callService r :=
  generateProofValidate_bad_minAmount c5WitnessReq (by decide)

end ProofsRoute

/-! ## The in-memory proof storage service (`proofStorageService.ts`) -/

namespace ProofStorageService

/-- The blockchain-native storage proof attached to a stored record. -/
structure StorageProofPayload where
  merkleProof : List String
  value : String
  blockNumber : Nat
  storageSlot : String
deriving DecidableEq

/-- A stored `ProofData` record. -/
structure ProofData where
  id : String
  walletAddress : String
  balanceUSDT : String
  minRequired : Int
  proof : StorageProofPayload
  claimText : String
  shareId : String
  timestamp : Nat
deriving DecidableEq

/-- The service's `Map<string, ProofData>` keyed by share id, as an
insertion-ordered association list (JS maps preserve insertion order). -/
abbrev Store := List (String × ProofData)

/-- JS `Map.prototype.set`: replace in place when the key exists,
otherwise append. -/
def mapSet (k : String) (v : ProofData) : Store → Store
  | [] => [(k, v)]
  | (k2, v2) :: rest =>
    if k2 == k then (k, v) :: rest else (k2, v2) :: mapSet k v rest

/-- `saveProof`: build the record — the wallet address lowercased, the
claim text rendered from `minRequired` — key it by a fresh share id,
store it, and return it.  The two `uuidv4()` draws and `Date.now()` are
nondeterministic inputs, passed as arguments. -/
def saveProof (store : Store) (uuidId uuidShare : String) (nowMs : Nat)
    (walletAddress balance : String) (minRequired : Int)
    (proof : StorageProofPayload) : Store × ProofData :=
  let proofData : ProofData :=
    { id := uuidId,
      walletAddress := jsToLower walletAddress,
      balanceUSDT := balance,
      minRequired := minRequired,
      proof := proof,
      claimText := "Proof that wallet has ≥ " ++ toString minRequired ++ " USDT",
      shareId := uuidShare,
      timestamp := nowMs }
  (mapSet uuidShare proofData store, proofData)

/-- `getProofsByWallet`: lowercase the query, then filter all stored
records by strict equality on the (already lowercased) stored wallet
address. -/
def getProofsByWallet (store : Store) (walletAddress : String) : List ProofData :=
  (store.map Prod.snd).filter (fun p => p.walletAddress == jsToLower walletAddress)

theorem mem_values_mapSet (k : String) (v : ProofData) (store : Store) :
    v ∈ (mapSet k v store).map Prod.snd := by
  induction store with
  | nil => simp [mapSet]
  | cons kv rest ih =>
    obtain ⟨k2, v2⟩ := kv
    unfold mapSet
    by_cases hk : (k2 == k) = true
    · rw [if_pos hk]
      simp
    · rw [if_neg hk]
      simp only [List.map_cons, List.mem_cons]
      exact Or.inr ih

/-- C9: `saveProof` stores the wallet address lowercase-normalised, and
wallet lookup is case-insensitive — for the stored record and every query
address equal to the record's wallet address up to letter case,
`getProofsByWallet` on the updated store returns that record. -/
theorem saveProof_wallet_lookup (store : Store) (uuidId uuidShare : String)
    (nowMs : Nat) (walletAddress balance : String) (minRequired : Int)
    (proof : StorageProofPayload) :
    (saveProof store uuidId uuidShare nowMs walletAddress balance minRequired proof).2.walletAddress
      = jsToLower walletAddress
    ∧ ∀ q, jsToLower q
        = jsToLower ((saveProof store uuidId uuidShare nowMs walletAddress balance minRequired proof).2.walletAddress) →
      (saveProof store uuidId uuidShare nowMs walletAddress balance minRequired proof).2
        ∈ getProofsByWallet
            (saveProof store uuidId uuidShare nowMs walletAddress balance minRequired proof).1 q := by
  constructor
  · rfl
  · intro q hq
    have hq2 : jsToLower q = jsToLower walletAddress := by
      calc jsToLower q = jsToLower (jsToLower walletAddress) := hq
        _ = jsToLower walletAddress := jsToLower_idem walletAddress
    unfold getProofsByWallet
    rw [List.mem_filter]
    constructor
    · exact mem_values_mapSet _ _ _
    · show ((saveProof store uuidId uuidShare nowMs walletAddress balance minRequired proof).2.walletAddress
        == jsToLower q) = true
      rw [show (saveProof store uuidId uuidShare nowMs walletAddress balance minRequired proof).2.walletAddress
        = jsToLower walletAddress from rfl, hq2]
      simp

end ProofStorageService

end ProofOfRiches
